import Mathlib

/-!
Shallow embedding of the snake game engine in `src/app.py`.

Modelling conventions:
* a Python `(row, col)` tuple of ints is `Cell := ℤ × ℤ`;
* the float `speed` is modelled exactly as a rational (`0.2 = 1/5`,
  `0.95 = 19/20`, `0.05 = 1/20`);
* the random source backing `random.randint` is an explicit list of
  candidate draws; `place_food`'s unbounded rejection loop returns `none`
  when the supplied draws are exhausted (divergence of the Python loop);
* Streamlit session state becomes an explicit `GameState` record, and the
  mutating Python functions become state transformers;
* the "tick" of the spec is the guarded call in `app()` (lines 221-223):
  `move_snake_logic` runs only when `is_playing and not game_over`.
-/

/-- `GRID_SIZE = 20` (src/app.py line 6). -/
def GRID_SIZE : ℤ := 20

/-- `INITIAL_SPEED = 0.2` (src/app.py line 8), as an exact rational. -/
def INITIAL_SPEED : ℚ := 1/5

/-- A grid cell `(row, col)`; Python ints are unbounded, so `ℤ × ℤ`. -/
abbrev Cell := ℤ × ℤ

/-- The session state fields set up by `initialize_game_state` /
`reset_game` (src/app.py lines 12-21, 42-52). -/
structure GameState where
  snake : List Cell
  direction : Cell
  food : Cell
  score : ℕ
  game_over : Bool
  is_playing : Bool
  speed : ℚ
deriving DecidableEq, Inhabited

/-- `place_food` (src/app.py lines 23-29): rejection sampling — keep
drawing until the draw is not on the snake.  The first argument is the
current snake body, the second the stream of random draws (truncated to a
list; `none` models the loop running past the supplied draws). -/
def place_food (snake : List Cell) : List Cell → Option Cell
  | [] => none
  | d :: ds => if d ∈ snake then place_food snake ds else some d

/-- `handle_direction` (src/app.py lines 31-40): no-op when the game is
over; otherwise set the direction unless it is the exact opposite of the
current one. -/
def handle_direction (s : GameState) (new_direction : Cell) : GameState :=
  if s.game_over then s
  else if new_direction ≠ (-s.direction.1, -s.direction.2) then
    { s with direction := new_direction }
  else s

/-- `initialize_game_state` (src/app.py lines 12-21): single-cell snake at
the grid center, heading right, fresh food, score 0, not playing. -/
def initialize_game_state (draws : List Cell) : Option GameState :=
  (place_food [(GRID_SIZE / 2, GRID_SIZE / 2)] draws).map fun f =>
    { snake := [(GRID_SIZE / 2, GRID_SIZE / 2)]
      direction := (0, 1)
      food := f
      score := 0
      game_over := false
      is_playing := false
      speed := INITIAL_SPEED }

/-- `reset_game` (src/app.py lines 42-52): like initialization but with
`is_playing := true`.  (The trailing `st.rerun()` is driver plumbing.) -/
def reset_game (draws : List Cell) : Option GameState :=
  (place_food [(GRID_SIZE / 2, GRID_SIZE / 2)] draws).map fun f =>
    { snake := [(GRID_SIZE / 2, GRID_SIZE / 2)]
      direction := (0, 1)
      food := f
      score := 0
      game_over := false
      is_playing := true
      speed := INITIAL_SPEED }

/-- `move_snake_logic` (src/app.py lines 56-82).  Matches the source step
by step: compute the new head; on wall or self collision set the game-over
flags and change nothing else; otherwise insert the new head, then either
eat (increment score, re-place food against the already-grown snake,
apply the speed-up rule) or pop the tail.  `none` arises only when the
snake is empty (Python would raise) or `place_food` runs out of draws. -/
def move_snake_logic (s : GameState) (draws : List Cell) : Option GameState :=
  match s.snake.head? with
  | none => none
  | some head =>
    if (head.1 + s.direction.1) < 0 ∨ GRID_SIZE ≤ (head.1 + s.direction.1) ∨
       (head.2 + s.direction.2) < 0 ∨ GRID_SIZE ≤ (head.2 + s.direction.2) ∨
       (head.1 + s.direction.1, head.2 + s.direction.2) ∈ s.snake then
      some { s with game_over := true, is_playing := false }
    else if (head.1 + s.direction.1, head.2 + s.direction.2) = s.food then
      (place_food ((head.1 + s.direction.1, head.2 + s.direction.2) :: s.snake) draws).map
        fun f =>
          { s with
            snake := (head.1 + s.direction.1, head.2 + s.direction.2) :: s.snake
            score := s.score + 1
            food := f
            speed :=
              if (s.score + 1) % 5 = 0 ∧ 1/20 < s.speed then s.speed * (19/20)
              else s.speed }
    else
      some { s with
             snake := ((head.1 + s.direction.1, head.2 + s.direction.2) :: s.snake).dropLast }

/-- The spec's `tick`: the game-loop guard in `app()` (src/app.py lines
221-223) runs `move_snake_logic` only while playing and not game over;
otherwise the state is untouched. -/
def tick (s : GameState) (draws : List Cell) : Option GameState :=
  if s.is_playing = true ∧ s.game_over = false then move_snake_logic s draws
  else some s

/-- The PLAYING phase of the spec's state machine, in terms of the two
flags the code keeps. -/
def phasePlaying (s : GameState) : Prop :=
  s.is_playing = true ∧ s.game_over = false

instance (s : GameState) : Decidable (phasePlaying s) := by
  unfold phasePlaying; infer_instance

/-- A cell within the `N × N` grid. -/
def inGrid (c : Cell) : Prop :=
  0 ≤ c.1 ∧ c.1 < GRID_SIZE ∧ 0 ≤ c.2 ∧ c.2 < GRID_SIZE

instance (c : Cell) : Decidable (inGrid c) := by
  unfold inGrid; infer_instance

/-- States reachable from the initial session state by any sequence of
`turn` (`handle_direction`), `tick`, and `reset` (`reset_game`) calls. -/
inductive Reachable : GameState → Prop where
  | init (draws : List Cell) (s : GameState) :
      initialize_game_state draws = some s → Reachable s
  | turn (s : GameState) (d : Cell) :
      Reachable s → Reachable (handle_direction s d)
  | tick (s : GameState) (draws : List Cell) (s' : GameState) :
      Reachable s → tick s draws = some s' → Reachable s'
  | reset (s : GameState) (draws : List Cell) (s' : GameState) :
      Reachable s → reset_game draws = some s' → Reachable s'

/-- One `turn` or `tick` call (no reset), as a step relation. -/
inductive StepTT : GameState → GameState → Prop where
  | turn (s : GameState) (d : Cell) : StepTT s (handle_direction s d)
  | tick (s : GameState) (draws : List Cell) (s' : GameState) :
      tick s draws = some s' → StepTT s s'

/-! ### Basic lemmas about `place_food` -/

theorem place_food_spec_aux {snake draws : List Cell} {c : Cell}
    (h : place_food snake draws = some c) : c ∉ snake ∧ c ∈ draws := by
  induction draws with
  | nil => simp [place_food] at h
  | cons d ds ih =>
    by_cases hd : d ∈ snake
    · simp only [place_food, if_pos hd] at h
      rcases ih h with ⟨h1, h2⟩
      exact ⟨h1, List.mem_cons_of_mem _ h2⟩
    · simp only [place_food, if_neg hd, Option.some_inj] at h
      exact ⟨h ▸ hd, h ▸ List.mem_cons_self d ds⟩

theorem place_food_isSome {snake draws : List Cell}
    (h : ∃ d ∈ draws, d ∉ snake) : ∃ c, place_food snake draws = some c := by
  induction draws with
  | nil => simp at h
  | cons d ds ih =>
    by_cases hd : d ∈ snake
    · simp only [place_food, if_pos hd]
      apply ih
      rcases h with ⟨e, he, hes⟩
      rcases List.mem_cons.mp he with rfl | he'
      · exact absurd hd hes
      · exact ⟨e, he', hes⟩
    · exact ⟨d, by simp [place_food, if_neg hd]⟩

theorem move_snake_logic_collision (s : GameState) (draws : List Cell)
    (hd : Cell) (tl : List Cell) (hs : s.snake = hd :: tl)
    (hcol : (hd.1 + s.direction.1) < 0 ∨ GRID_SIZE ≤ (hd.1 + s.direction.1) ∨
            (hd.2 + s.direction.2) < 0 ∨ GRID_SIZE ≤ (hd.2 + s.direction.2) ∨
            (hd.1 + s.direction.1, hd.2 + s.direction.2) ∈ s.snake) :
    move_snake_logic s draws = some { s with game_over := true, is_playing := false } := by
  unfold move_snake_logic
  rw [hs] at hcol ⊢
  simp only [List.head?_cons]
  rw [if_pos hcol]

theorem move_snake_logic_eat (s : GameState) (draws : List Cell)
    (hd : Cell) (tl : List Cell) (hs : s.snake = hd :: tl)
    (hcol : ¬((hd.1 + s.direction.1) < 0 ∨ GRID_SIZE ≤ (hd.1 + s.direction.1) ∨
            (hd.2 + s.direction.2) < 0 ∨ GRID_SIZE ≤ (hd.2 + s.direction.2) ∨
            (hd.1 + s.direction.1, hd.2 + s.direction.2) ∈ s.snake))
    (hfood : (hd.1 + s.direction.1, hd.2 + s.direction.2) = s.food) :
    move_snake_logic s draws =
      (place_food ((hd.1 + s.direction.1, hd.2 + s.direction.2) :: s.snake) draws).map
        fun f =>
          { s with
            snake := (hd.1 + s.direction.1, hd.2 + s.direction.2) :: s.snake
            score := s.score + 1
            food := f
            speed :=
              if (s.score + 1) % 5 = 0 ∧ 1/20 < s.speed then s.speed * (19/20)
              else s.speed } := by
  unfold move_snake_logic
  rw [hs] at hcol ⊢
  simp only [List.head?_cons]
  rw [if_neg hcol, if_pos hfood]

theorem move_snake_logic_noeat (s : GameState) (draws : List Cell)
    (hd : Cell) (tl : List Cell) (hs : s.snake = hd :: tl)
    (hcol : ¬((hd.1 + s.direction.1) < 0 ∨ GRID_SIZE ≤ (hd.1 + s.direction.1) ∨
            (hd.2 + s.direction.2) < 0 ∨ GRID_SIZE ≤ (hd.2 + s.direction.2) ∨
            (hd.1 + s.direction.1, hd.2 + s.direction.2) ∈ s.snake))
    (hfood : (hd.1 + s.direction.1, hd.2 + s.direction.2) ≠ s.food) :
    move_snake_logic s draws =
      some { s with
             snake := ((hd.1 + s.direction.1, hd.2 + s.direction.2) :: s.snake).dropLast } := by
  unfold move_snake_logic
  rw [hs] at hcol ⊢
  simp only [List.head?_cons]
  rw [if_neg hcol, if_neg hfood]

/-- Full case analysis of a successful `move_snake_logic` call. -/
theorem move_snake_logic_elim {s s' : GameState} {draws : List Cell}
    (h : move_snake_logic s draws = some s') :
    ∃ hd tl nh, s.snake = hd :: tl ∧
      nh = (hd.1 + s.direction.1, hd.2 + s.direction.2) ∧
      ((nh.1 < 0 ∨ GRID_SIZE ≤ nh.1 ∨ nh.2 < 0 ∨ GRID_SIZE ≤ nh.2 ∨ nh ∈ s.snake) ∧
        s' = { s with game_over := true, is_playing := false } ∨
       ¬(nh.1 < 0 ∨ GRID_SIZE ≤ nh.1 ∨ nh.2 < 0 ∨ GRID_SIZE ≤ nh.2 ∨ nh ∈ s.snake) ∧
        nh = s.food ∧
        (∃ f, place_food (nh :: s.snake) draws = some f ∧
          s' = { s with
                 snake := nh :: s.snake
                 score := s.score + 1
                 food := f
                 speed := if (s.score + 1) % 5 = 0 ∧ 1/20 < s.speed then s.speed * (19/20)
                          else s.speed }) ∨
       ¬(nh.1 < 0 ∨ GRID_SIZE ≤ nh.1 ∨ nh.2 < 0 ∨ GRID_SIZE ≤ nh.2 ∨ nh ∈ s.snake) ∧
        nh ≠ s.food ∧ s' = { s with snake := (nh :: s.snake).dropLast }) := by
  obtain ⟨hd, tl, hs⟩ : ∃ hd tl, s.snake = hd :: tl := by
    cases hsn : s.snake with
    | nil =>
      unfold move_snake_logic at h
      rw [hsn] at h
      simp at h
    | cons a b => exact ⟨a, b, rfl⟩
  refine ⟨hd, tl, (hd.1 + s.direction.1, hd.2 + s.direction.2), hs, rfl, ?_⟩
  (
    by_cases hcol : (hd.1 + s.direction.1) < 0 ∨ GRID_SIZE ≤ (hd.1 + s.direction.1) ∨
        (hd.2 + s.direction.2) < 0 ∨ GRID_SIZE ≤ (hd.2 + s.direction.2) ∨
        (hd.1 + s.direction.1, hd.2 + s.direction.2) ∈ s.snake
    · left
      rw [move_snake_logic_collision s draws hd tl hs hcol] at h
      exact ⟨hcol, (Option.some_inj.mp h).symm⟩
    · by_cases hfood : (hd.1 + s.direction.1, hd.2 + s.direction.2) = s.food
      · right; left
        rw [move_snake_logic_eat s draws hd tl hs hcol hfood] at h
        cases hpf : place_food ((hd.1 + s.direction.1, hd.2 + s.direction.2) :: s.snake) draws with
        | none => rw [hpf] at h; simp at h
        | some f =>
          rw [hpf] at h
          simp only [Option.map_some', Option.some_inj] at h
          exact ⟨hcol, hfood, f, rfl, h.symm⟩
      · right; right
        rw [move_snake_logic_noeat s draws hd tl hs hcol hfood] at h
        exact ⟨hcol, hfood, (Option.some_inj.mp h).symm⟩)

/-- `tick` either fires `move_snake_logic` (while playing) or is the
identity. -/
theorem tick_elim {s s' : GameState} {draws : List Cell}
    (h : tick s draws = some s') :
    phasePlaying s ∧ move_snake_logic s draws = some s' ∨ ¬phasePlaying s ∧ s' = s := by
  unfold tick phasePlaying at *
  by_cases hp : s.is_playing = true ∧ s.game_over = false
  · rw [if_pos hp] at h; exact Or.inl ⟨hp, h⟩
  · rw [if_neg hp] at h; exact Or.inr ⟨hp, (Option.some_inj.mp h).symm⟩

/-- `handle_direction` touches no field but `direction`. -/
theorem handle_direction_frame (s : GameState) (d : Cell) :
    (handle_direction s d).snake = s.snake ∧ (handle_direction s d).food = s.food ∧
    (handle_direction s d).score = s.score ∧ (handle_direction s d).speed = s.speed ∧
    (handle_direction s d).game_over = s.game_over ∧
    (handle_direction s d).is_playing = s.is_playing := by
  unfold handle_direction
  split
  · exact ⟨rfl, rfl, rfl, rfl, rfl, rfl⟩
  split
  · exact ⟨rfl, rfl, rfl, rfl, rfl, rfl⟩
  · exact ⟨rfl, rfl, rfl, rfl, rfl, rfl⟩

/-- Unfolding a successful `reset_game` call. -/
theorem reset_game_elim {draws : List Cell} {s' : GameState}
    (h : reset_game draws = some s') :
    s'.snake = [(GRID_SIZE / 2, GRID_SIZE / 2)] ∧ s'.direction = (0, 1) ∧
    s'.score = 0 ∧ s'.game_over = false ∧ s'.is_playing = true ∧
    s'.speed = INITIAL_SPEED ∧
    place_food [(GRID_SIZE / 2, GRID_SIZE / 2)] draws = some s'.food := by
  unfold reset_game at h
  cases hpf : place_food [(GRID_SIZE / 2, GRID_SIZE / 2)] draws with
  | none => rw [hpf] at h; simp at h
  | some f =>
    rw [hpf] at h
    simp only [Option.map_some', Option.some_inj] at h
    subst h
    exact ⟨rfl, rfl, rfl, rfl, rfl, rfl, rfl⟩

/-- Unfolding a successful `initialize_game_state` call. -/
theorem initialize_game_state_elim {draws : List Cell} {s' : GameState}
    (h : initialize_game_state draws = some s') :
    s'.snake = [(GRID_SIZE / 2, GRID_SIZE / 2)] ∧ s'.direction = (0, 1) ∧
    s'.score = 0 ∧ s'.game_over = false ∧ s'.is_playing = false ∧
    s'.speed = INITIAL_SPEED ∧
    place_food [(GRID_SIZE / 2, GRID_SIZE / 2)] draws = some s'.food := by
  unfold initialize_game_state at h
  cases hpf : place_food [(GRID_SIZE / 2, GRID_SIZE / 2)] draws with
  | none => rw [hpf] at h; simp at h
  | some f =>
    rw [hpf] at h
    simp only [Option.map_some', Option.some_inj] at h
    subst h
    exact ⟨rfl, rfl, rfl, rfl, rfl, rfl, rfl⟩

/-- A non-colliding new head is not on the old snake. -/
theorem not_mem_of_no_collision {s : GameState} {nh : Cell}
    (hcol : ¬(nh.1 < 0 ∨ GRID_SIZE ≤ nh.1 ∨ nh.2 < 0 ∨ GRID_SIZE ≤ nh.2 ∨
              nh ∈ s.snake)) : nh ∉ s.snake := by
  push_neg at hcol
  exact hcol.2.2.2.2

/-- `move_snake_logic` preserves the no-duplicates / food-off-body
invariant. -/
theorem move_snake_logic_inv {s s' : GameState} {draws : List Cell}
    (hnd : s.snake.Nodup) (hf : s.food ∉ s.snake)
    (h : move_snake_logic s draws = some s') :
    s'.snake.Nodup ∧ s'.food ∉ s'.snake := by
  obtain ⟨hd, tl, nh, hs, hnh, hcase⟩ := move_snake_logic_elim h
  rcases hcase with ⟨hcol, rfl⟩ | ⟨hcol, hfood, f, hpf, rfl⟩ | ⟨hcol, hfood, rfl⟩
  · exact ⟨hnd, hf⟩
  · refine ⟨List.nodup_cons.mpr ⟨not_mem_of_no_collision hcol, hnd⟩, ?_⟩
    exact (place_food_spec_aux hpf).1
  · constructor
    · exact List.Nodup.sublist (List.dropLast_sublist _)
        (List.nodup_cons.mpr ⟨not_mem_of_no_collision hcol, hnd⟩)
    · intro hmem
      have hmem' : s.food ∈ nh :: s.snake := List.dropLast_subset _ hmem
      rcases List.mem_cons.mp hmem' with heq | hmem''
      · exact hfood heq.symm
      · exact hf hmem''

/-- `tick` preserves the no-duplicates / food-off-body invariant. -/
theorem tick_inv {s s' : GameState} {draws : List Cell}
    (hnd : s.snake.Nodup) (hf : s.food ∉ s.snake)
    (h : tick s draws = some s') : s'.snake.Nodup ∧ s'.food ∉ s'.snake := by
  rcases tick_elim h with ⟨_, hm⟩ | ⟨_, rfl⟩
  · exact move_snake_logic_inv hnd hf hm
  · exact ⟨hnd, hf⟩

/-- The reachable-state invariant backing C1. -/
theorem reachable_inv {s : GameState} (h : Reachable s) :
    s.snake.Nodup ∧ s.food ∉ s.snake := by
  induction h with
  | init draws s hinit =>
    obtain ⟨hsn, -, -, -, -, -, hpf⟩ := initialize_game_state_elim hinit
    refine ⟨hsn ▸ List.nodup_singleton _, ?_⟩
    rw [hsn]
    exact (place_food_spec_aux hpf).1
  | turn s d _ ih =>
    obtain ⟨h1, h2, -, -, -, -⟩ := handle_direction_frame s d
    rw [h1, h2]
    exact ih
  | tick s draws s' _ htick ih => exact tick_inv ih.1 ih.2 htick
  | reset s draws s' _ hreset ih =>
    obtain ⟨hsn, -, -, -, -, -, hpf⟩ := reset_game_elim hreset
    refine ⟨hsn ▸ List.nodup_singleton _, ?_⟩
    rw [hsn]
    exact (place_food_spec_aux hpf).1

/-- Score and speed changes a `move_snake_logic` call can make. -/
theorem move_snake_logic_score_speed {s s' : GameState} {draws : List Cell}
    (h : move_snake_logic s draws = some s') :
    (s'.score = s.score ∨ s'.score = s.score + 1) ∧
    (s'.speed = s.speed ∨ 1/20 < s.speed ∧ s'.speed = s.speed * (19/20)) := by
  obtain ⟨hd, tl, nh, hs, hnh, hcase⟩ := move_snake_logic_elim h
  rcases hcase with ⟨_, rfl⟩ | ⟨_, _, f, _, rfl⟩ | ⟨_, _, rfl⟩
  · exact ⟨Or.inl rfl, Or.inl rfl⟩
  · refine ⟨Or.inr rfl, ?_⟩
    by_cases hc : (s.score + 1) % 5 = 0 ∧ 1/20 < s.speed
    · right
      refine ⟨hc.2, ?_⟩
      show (if _ then _ else _) = _
      rw [if_pos hc]
    · left
      show (if _ then _ else _) = _
      rw [if_neg hc]
  · exact ⟨Or.inl rfl, Or.inl rfl⟩

/-- A tick never shortens the snake. -/
theorem move_snake_logic_length {s s' : GameState} {draws : List Cell}
    (h : move_snake_logic s draws = some s') :
    s.snake.length ≤ s'.snake.length := by
  obtain ⟨hd, tl, nh, hs, hnh, hcase⟩ := move_snake_logic_elim h
  rcases hcase with ⟨_, rfl⟩ | ⟨_, _, f, _, rfl⟩ | ⟨_, _, rfl⟩
  · exact le_refl _
  · show s.snake.length ≤ (nh :: s.snake).length
    simp
  · show s.snake.length ≤ ((nh :: s.snake).dropLast).length
    simp [List.length_dropLast]

/-- The speed floor that actually holds: once below `1/20` the speed-up
rule is disabled, so the speed never drops below `(1/20) * (19/20)`. -/
theorem move_snake_logic_speed_floor {s s' : GameState} {draws : List Cell}
    (h : move_snake_logic s draws = some s') (hlow : 19/400 < s.speed) :
    19/400 < s'.speed := by
  rcases (move_snake_logic_score_speed h).2 with heq | ⟨hgt, heq⟩
  · rw [heq]; exact hlow
  · rw [heq]
    nlinarith [hgt]

/-- Speed is non-increasing across `move_snake_logic`. -/
theorem move_snake_logic_speed_mono {s s' : GameState} {draws : List Cell}
    (h : move_snake_logic s draws = some s') : s'.speed ≤ s.speed := by
  rcases (move_snake_logic_score_speed h).2 with heq | ⟨hgt, heq⟩
  · exact le_of_eq heq
  · rw [heq]
    nlinarith [hgt]

/-- Score is non-decreasing across `move_snake_logic`. -/
theorem move_snake_logic_score_mono {s s' : GameState} {draws : List Cell}
    (h : move_snake_logic s draws = some s') : s.score ≤ s'.score := by
  rcases (move_snake_logic_score_speed h).1 with heq | heq <;> omega

/-- Every reachable state keeps its speed above `19/400`. -/
theorem reachable_speed {s : GameState} (h : Reachable s) : 19/400 < s.speed := by
  induction h with
  | init draws s hinit =>
    obtain ⟨-, -, -, -, -, hsp, -⟩ := initialize_game_state_elim hinit
    rw [hsp]; unfold INITIAL_SPEED; norm_num
  | turn s d _ ih =>
    obtain ⟨-, -, -, hsp, -, -⟩ := handle_direction_frame s d
    rw [hsp]; exact ih
  | tick s draws s' _ htick ih =>
    rcases tick_elim htick with ⟨_, hm⟩ | ⟨_, rfl⟩
    · exact move_snake_logic_speed_floor hm ih
    · exact ih
  | reset s draws s' _ hreset ih =>
    obtain ⟨-, -, -, -, -, hsp, -⟩ := reset_game_elim hreset
    rw [hsp]; unfold INITIAL_SPEED; norm_num

/-- A turn-or-tick step stays within the reachable states. -/
theorem stepTT_reachable {s s' : GameState} (hr : Reachable s)
    (h : StepTT s s') : Reachable s' := by
  cases h with
  | turn d => exact Reachable.turn s d hr
  | tick draws s2 htick => exact Reachable.tick s draws s' hr htick

/-- A turn-or-tick step never decreases the score nor increases the
speed. -/
theorem stepTT_mono {s s' : GameState} (h : StepTT s s') :
    s.score ≤ s'.score ∧ s'.speed ≤ s.speed := by
  cases h with
  | turn d =>
    obtain ⟨-, -, hsc, hsp, -, -⟩ := handle_direction_frame s d
    exact ⟨le_of_eq hsc.symm, le_of_eq hsp⟩
  | tick draws s2 htick =>
    rcases tick_elim htick with ⟨_, hm⟩ | ⟨_, rfl⟩
    · exact ⟨move_snake_logic_score_mono hm, move_snake_logic_speed_mono hm⟩
    · exact ⟨le_refl _, le_refl _⟩

/-- Turn-and-tick sequences stay reachable. -/
theorem reachTT_reachable {s₀ s : GameState} (hr : Reachable s₀)
    (h : Relation.ReflTransGen StepTT s₀ s) : Reachable s := by
  induction h with
  | refl => exact hr
  | tail hab hbc ih => exact stepTT_reachable ih hbc

/-! ### Concrete states used as witness inputs -/

/-- The session state produced by `initialize_game_state` when the food
draw is `(0, 0)`. -/
def initState0 : GameState where
  snake := [(10, 10)]
  direction := (0, 1)
  food := (0, 0)
  score := 0
  game_over := false
  is_playing := false
  speed := 1/5

/-- The state produced by `reset_game` when the food draw is `(10, 11)`. -/
def startState : GameState where
  snake := [(10, 10)]
  direction := (0, 1)
  food := (10, 11)
  score := 0
  game_over := false
  is_playing := true
  speed := 1/5

/-- Spec scenario 3: single cell at the corner, heading up. -/
def cornerState : GameState where
  snake := [(0, 0)]
  direction := (-1, 0)
  food := (5, 5)
  score := 0
  game_over := false
  is_playing := true
  speed := 1/5

/-- Spec scenario 2: single cell at `(5,5)`, heading right, food ahead. -/
def eatState : GameState where
  snake := [(5, 5)]
  direction := (0, 1)
  food := (5, 6)
  score := 0
  game_over := false
  is_playing := true
  speed := 1/5

/-- The state after `eatState` ticks and eats (food redrawn at `(0,0)`). -/
def eatStateAfter : GameState where
  snake := [(5, 6), (5, 5)]
  direction := (0, 1)
  food := (0, 0)
  score := 1
  game_over := false
  is_playing := true
  speed := 1/5

/-- Spec scenario 1: single cell at the center, heading right, food far
away. -/
def moveState : GameState where
  snake := [(10, 10)]
  direction := (0, 1)
  food := (0, 0)
  score := 0
  game_over := false
  is_playing := true
  speed := 1/5

/-- The state after `moveState` ticks without eating. -/
def moveStateAfter : GameState where
  snake := [(10, 11)]
  direction := (0, 1)
  food := (0, 0)
  score := 0
  game_over := false
  is_playing := true
  speed := 1/5

/-! ### The claims -/

/-- C1: every state reachable from the initial state via `turn`, `tick`,
and `reset` calls has a duplicate-free body, and the food cell is never on
the body. -/
theorem reachable_no_dup_food_off_body (s : GameState) (h : Reachable s) :
    s.snake.Nodup ∧ s.food ∉ s.snake :=
  reachable_inv h

theorem reachable_no_dup_food_off_body_witness :
    initState0.snake.Nodup ∧ initState0.food ∉ initState0.snake :=
  reachable_no_dup_food_off_body initState0
    (Reachable.init [((0 : ℤ), (0 : ℤ))] initState0 (by with_unfolding_all decide))

/-- C2: in the PLAYING phase, a tick whose new head is out of bounds or on
the body sets the game-over flag (and clears the playing flag) and leaves
body, food, and score unchanged. -/
theorem tick_collision_game_over (s : GameState) (draws : List Cell)
    (hd : Cell) (tl : List Cell) (hs : s.snake = hd :: tl)
    (hp : phasePlaying s)
    (hcol : (hd.1 + s.direction.1) < 0 ∨ GRID_SIZE ≤ (hd.1 + s.direction.1) ∨
            (hd.2 + s.direction.2) < 0 ∨ GRID_SIZE ≤ (hd.2 + s.direction.2) ∨
            (hd.1 + s.direction.1, hd.2 + s.direction.2) ∈ s.snake) :
    ∃ s', tick s draws = some s' ∧ s'.game_over = true ∧ s'.is_playing = false ∧
      s'.snake = s.snake ∧ s'.food = s.food ∧ s'.score = s.score := by
  have hp' : s.is_playing = true ∧ s.game_over = false := hp
  refine ⟨{ s with game_over := true, is_playing := false }, ?_, rfl, rfl, rfl, rfl, rfl⟩
  unfold tick
  rw [if_pos hp']
  exact move_snake_logic_collision s draws hd tl hs hcol

theorem tick_collision_game_over_witness :
    ∃ s', tick cornerState [] = some s' ∧ s'.game_over = true ∧ s'.is_playing = false ∧
      s'.snake = cornerState.snake ∧ s'.food = cornerState.food ∧
      s'.score = cornerState.score :=
  tick_collision_game_over cornerState [] (0, 0) [] rfl (by decide) (by decide)

/-- C3: in the PLAYING phase, a tick whose new head is in bounds, off the
body, and on the food prepends the head without popping the tail (length
grows by one), increments the score, re-places the food off the new body,
and decays the speed by `0.95` exactly when the new score is a multiple of
5 and the speed exceeds the minimum. -/
theorem tick_eat_spec (s : GameState) (draws : List Cell) (hd : Cell)
    (tl : List Cell) (s' : GameState) (hs : s.snake = hd :: tl)
    (hp : phasePlaying s)
    (hcol : ¬((hd.1 + s.direction.1) < 0 ∨ GRID_SIZE ≤ (hd.1 + s.direction.1) ∨
            (hd.2 + s.direction.2) < 0 ∨ GRID_SIZE ≤ (hd.2 + s.direction.2) ∨
            (hd.1 + s.direction.1, hd.2 + s.direction.2) ∈ s.snake))
    (hfood : (hd.1 + s.direction.1, hd.2 + s.direction.2) = s.food)
    (htick : tick s draws = some s') :
    s'.snake = (hd.1 + s.direction.1, hd.2 + s.direction.2) :: s.snake ∧
    s'.snake.length = s.snake.length + 1 ∧
    s'.score = s.score + 1 ∧
    s'.food ∉ s'.snake ∧
    ((s.score + 1) % 5 = 0 ∧ 1/20 < s.speed → s'.speed = s.speed * (19/20)) ∧
    (¬((s.score + 1) % 5 = 0 ∧ 1/20 < s.speed) → s'.speed = s.speed) := by
  have hp' : s.is_playing = true ∧ s.game_over = false := hp
  unfold tick at htick
  rw [if_pos hp'] at htick
  rw [move_snake_logic_eat s draws hd tl hs hcol hfood] at htick
  cases hpf : place_food ((hd.1 + s.direction.1, hd.2 + s.direction.2) :: s.snake) draws with
  | none => rw [hpf] at htick; simp at htick
  | some f =>
    rw [hpf] at htick
    simp only [Option.map_some', Option.some_inj] at htick
    subst htick
    refine ⟨rfl, by simp, rfl, (place_food_spec_aux hpf).1, ?_, ?_⟩
    · intro hc
      show (if _ then _ else _) = _
      rw [if_pos hc]
    · intro hc
      show (if _ then _ else _) = _
      rw [if_neg hc]

theorem tick_eat_spec_witness :
    eatStateAfter.snake = ((5 : ℤ) + 0, (5 : ℤ) + 1) :: eatState.snake ∧
    eatStateAfter.snake.length = eatState.snake.length + 1 ∧
    eatStateAfter.score = eatState.score + 1 ∧
    eatStateAfter.food ∉ eatStateAfter.snake ∧
    ((eatState.score + 1) % 5 = 0 ∧ 1/20 < eatState.speed →
      eatStateAfter.speed = eatState.speed * (19/20)) ∧
    (¬((eatState.score + 1) % 5 = 0 ∧ 1/20 < eatState.speed) →
      eatStateAfter.speed = eatState.speed) :=
  tick_eat_spec eatState [((0 : ℤ), (0 : ℤ))] (5, 5) [] eatStateAfter rfl
    (by decide) (by decide) (by decide) (by with_unfolding_all decide)

/-- C4: in the PLAYING phase, a tick whose new head is in bounds, off the
body, and off the food prepends the head and pops the tail (length, score
and food unchanged); moreover no tick ever shortens the body. -/
theorem tick_no_eat_spec :
    (∀ (s : GameState) (draws : List Cell) (hd : Cell) (tl : List Cell)
       (s' : GameState),
      s.snake = hd :: tl → phasePlaying s →
      ¬((hd.1 + s.direction.1) < 0 ∨ GRID_SIZE ≤ (hd.1 + s.direction.1) ∨
        (hd.2 + s.direction.2) < 0 ∨ GRID_SIZE ≤ (hd.2 + s.direction.2) ∨
        (hd.1 + s.direction.1, hd.2 + s.direction.2) ∈ s.snake) →
      (hd.1 + s.direction.1, hd.2 + s.direction.2) ≠ s.food →
      tick s draws = some s' →
      s'.snake = ((hd.1 + s.direction.1, hd.2 + s.direction.2) :: s.snake).dropLast ∧
      s'.snake.length = s.snake.length ∧ s'.score = s.score ∧ s'.food = s.food) ∧
    (∀ (s : GameState) (draws : List Cell) (s' : GameState),
      tick s draws = some s' → s.snake.length ≤ s'.snake.length) := by
  constructor
  · intro s draws hd tl s' hs hp hcol hfood htick
    have hp' : s.is_playing = true ∧ s.game_over = false := hp
    unfold tick at htick
    rw [if_pos hp'] at htick
    rw [move_snake_logic_noeat s draws hd tl hs hcol hfood] at htick
    rw [Option.some_inj] at htick
    subst htick
    refine ⟨rfl, ?_, rfl, rfl⟩
    show ((_ :: s.snake).dropLast).length = s.snake.length
    rw [List.length_dropLast, List.length_cons]
    omega
  · intro s draws s' htick
    rcases tick_elim htick with ⟨_, hm⟩ | ⟨_, rfl⟩
    · exact move_snake_logic_length hm
    · exact le_refl _

theorem tick_no_eat_spec_witness :
    (moveStateAfter.snake =
      (((10 : ℤ) + 0, (10 : ℤ) + 1) :: moveState.snake).dropLast ∧
     moveStateAfter.snake.length = moveState.snake.length ∧
     moveStateAfter.score = moveState.score ∧
     moveStateAfter.food = moveState.food) ∧
    moveState.snake.length ≤ moveStateAfter.snake.length :=
  ⟨tick_no_eat_spec.1 moveState [] (10, 10) [] moveStateAfter rfl (by decide)
      (by decide) (by decide) (by with_unfolding_all decide),
   tick_no_eat_spec.2 moveState [] moveStateAfter (by with_unfolding_all decide)⟩

/-- C5: `turn` is a no-op in the GAME_OVER phase; otherwise the heading
becomes the requested direction unless that is the exact component-wise
negation of the current heading, in which case it is unchanged. -/
theorem turn_no_reversal (s : GameState) (d : Cell) :
    (s.game_over = true → handle_direction s d = s) ∧
    (s.game_over = false → (handle_direction s d).direction =
      if d = (-s.direction.1, -s.direction.2) then s.direction else d) := by
  constructor
  · intro hgo
    unfold handle_direction
    simp [hgo]
  · intro hgo
    unfold handle_direction
    by_cases hrev : d = (-s.direction.1, -s.direction.2)
    · simp [hgo, hrev]
    · simp [hgo, hrev]

theorem turn_no_reversal_witness :
    (handle_direction initState0 (0, -1)).direction =
      if ((0 : ℤ), (-1 : ℤ)) = (-initState0.direction.1, -initState0.direction.2)
      then initState0.direction else ((0 : ℤ), (-1 : ℤ)) :=
  (turn_no_reversal initState0 (0, -1)).2 (by decide)

/-- C7: when the phase is not PLAYING, a tick leaves the state exactly as
it was. -/
theorem tick_not_playing_noop (s : GameState) (draws : List Cell)
    (hp : ¬phasePlaying s) : tick s draws = some s := by
  have hp' : ¬(s.is_playing = true ∧ s.game_over = false) := hp
  unfold tick
  rw [if_neg hp']

theorem tick_not_playing_noop_witness :
    tick initState0 [] = some initState0 :=
  tick_not_playing_noop initState0 [] (by decide)

/-- C9: a successful `reset_game` yields a single-cell snake at the grid
center, heading right, score 0, initial speed, playing phase, and food off
the body. -/
theorem reset_game_spec (draws : List Cell) (s' : GameState)
    (h : reset_game draws = some s') :
    s'.snake = [(GRID_SIZE / 2, GRID_SIZE / 2)] ∧ s'.direction = (0, 1) ∧
    s'.score = 0 ∧ s'.speed = INITIAL_SPEED ∧ s'.game_over = false ∧
    s'.is_playing = true ∧ s'.food ∉ s'.snake := by
  obtain ⟨h1, h2, h3, h4, h5, h6, hpf⟩ := reset_game_elim h
  refine ⟨h1, h2, h3, h6, h4, h5, ?_⟩
  rw [h1]
  exact (place_food_spec_aux hpf).1

theorem reset_game_spec_witness :
    startState.snake = [(GRID_SIZE / 2, GRID_SIZE / 2)] ∧
    startState.direction = (0, 1) ∧ startState.score = 0 ∧
    startState.speed = INITIAL_SPEED ∧ startState.game_over = false ∧
    startState.is_playing = true ∧ startState.food ∉ startState.snake :=
  reset_game_spec [((10 : ℤ), (11 : ℤ))] startState (by with_unfolding_all decide)

/-- C10: `turn` changes at most the heading — body, food, score, speed and
both phase flags are untouched. -/
theorem turn_frame_effect (s : GameState) (d : Cell) :
    (handle_direction s d).snake = s.snake ∧
    (handle_direction s d).food = s.food ∧
    (handle_direction s d).score = s.score ∧
    (handle_direction s d).speed = s.speed ∧
    (handle_direction s d).game_over = s.game_over ∧
    (handle_direction s d).is_playing = s.is_playing :=
  handle_direction_frame s d

/-! ### C8: food placement -/

/-- The `N × N` grid as a finite set of cells. -/
def gridFinset : Finset Cell := Finset.Ico 0 GRID_SIZE ×ˢ Finset.Ico 0 GRID_SIZE

theorem mem_gridFinset {c : Cell} : c ∈ gridFinset ↔ inGrid c := by
  unfold gridFinset inGrid
  rw [Finset.mem_product, Finset.mem_Ico, Finset.mem_Ico]
  tauto

theorem gridFinset_card : gridFinset.card = GRID_SIZE.toNat * GRID_SIZE.toNat := by
  unfold gridFinset
  rw [Finset.card_product, Int.card_Ico]
  norm_num

theorem mem_gridList {c : Cell} : c ∈ gridFinset.toList ↔ inGrid c := by
  rw [Finset.mem_toList]
  exact mem_gridFinset

/-- C8: if the body occupies fewer than `N²` cells, then `place_food`,
fed by any in-grid random stream that is exhaustive over the grid,
terminates with a cell inside the grid and off the body (rejection
sampling: the result is the first draw off the body). -/
theorem place_food_terminates_fresh (snake draws : List Cell)
    (hcard : snake.toFinset.card < GRID_SIZE.toNat * GRID_SIZE.toNat)
    (hin : ∀ d ∈ draws, inGrid d)
    (hall : ∀ c, inGrid c → c ∈ draws) :
    ∃ c, place_food snake draws = some c ∧ inGrid c ∧ c ∉ snake := by
  have hsub : ¬gridFinset ⊆ snake.toFinset := by
    intro hsub
    have hle := Finset.card_le_card hsub
    rw [gridFinset_card] at hle
    omega
  obtain ⟨c0, hc0g, hc0s⟩ := Finset.not_subset.mp hsub
  have hc0grid : inGrid c0 := mem_gridFinset.mp hc0g
  have hc0sn : c0 ∉ snake := fun hmem => hc0s (List.mem_toFinset.mpr hmem)
  obtain ⟨c, hc⟩ := place_food_isSome ⟨c0, hall c0 hc0grid, hc0sn⟩
  obtain ⟨hcs, hcd⟩ := place_food_spec_aux hc
  exact ⟨c, hc, hin c hcd, hcs⟩

theorem place_food_terminates_fresh_witness :
    ∃ c, place_food [((10 : ℤ), (10 : ℤ))] gridFinset.toList = some c ∧
      inGrid c ∧ c ∉ [((10 : ℤ), (10 : ℤ))] :=
  place_food_terminates_fresh [((10 : ℤ), (10 : ℤ))] gridFinset.toList
    (by decide) (fun d hd => mem_gridList.mp hd) (fun c hc => mem_gridList.mpr hc)

/-! ### C6: monotonicity and the speed floor -/

/-- `startState` really is reachable (initialize, then reset with food
drawn at `(10, 11)`). -/
theorem startState_reachable : Reachable startState :=
  Reachable.reset initState0 [((10 : ℤ), (11 : ℤ))] startState
    (Reachable.init [((0 : ℤ), (0 : ℤ))] initState0 (by with_unfolding_all decide))
    (by with_unfolding_all decide)

/-- C6 (amended): over every sequence of `turn` and `tick` calls starting
from a reachable state, the score is non-decreasing and the speed is
non-increasing; the speed stays above `MIN_SPEED * 0.95 = 19/400` (but can
drop below `MIN_SPEED = 1/20` itself, see the counterexample). -/
theorem score_speed_monotone (s₀ s : GameState) (h₀ : Reachable s₀)
    (h : Relation.ReflTransGen StepTT s₀ s) :
    s₀.score ≤ s.score ∧ s.speed ≤ s₀.speed ∧ 19/400 < s.speed := by
  induction h with
  | refl => exact ⟨le_refl _, le_refl _, reachable_speed h₀⟩
  | tail hab hbc ih =>
    obtain ⟨h1, h2⟩ := stepTT_mono hbc
    exact ⟨ih.1.trans h1, h2.trans ih.2.1,
      reachable_speed (stepTT_reachable (reachTT_reachable h₀ hab) hbc)⟩

theorem score_speed_monotone_witness :
    startState.score ≤ startState.score ∧
    startState.speed ≤ startState.speed ∧ 19/400 < startState.speed :=
  score_speed_monotone startState startState startState_reachable
    Relation.ReflTransGen.refl

/-! ### C6 counterexample: the speed drops below `1/20` -/

/-- A scripted engine call: one `turn` or one `tick` with given food
draws. -/
inductive GameOp where
  | turnStep (d : Cell)
  | tickStep (draws : List Cell)

/-- Run one scripted call. -/
def runOp (s : GameState) : GameOp → Option GameState
  | GameOp.turnStep d => some (handle_direction s d)
  | GameOp.tickStep draws => tick s draws

/-- Run a script of calls left to right. -/
def runScript : GameState → List GameOp → Option GameState
  | s, [] => some s
  | s, op :: ops => (runOp s op).bind fun s' => runScript s' ops

theorem runScript_reachTT {ops : List GameOp} {s s' : GameState}
    (h : runScript s ops = some s') : Relation.ReflTransGen StepTT s s' := by
  induction ops generalizing s with
  | nil =>
    unfold runScript at h
    rw [Option.some_inj] at h
    exact h ▸ Relation.ReflTransGen.refl
  | cons op ops ih =>
    unfold runScript at h
    cases hop : runOp s op with
    | none => rw [hop] at h; simp at h
    | some s1 =>
      rw [hop] at h
      simp only [Option.some_bind] at h
      have hstep : StepTT s s1 := by
        cases op with
        | turnStep d =>
          unfold runOp at hop
          rw [Option.some_inj] at hop
          exact hop ▸ StepTT.turn s d
        | tickStep draws =>
          unfold runOp at hop
          exact StepTT.tick s draws s1 hop
      exact Relation.ReflTransGen.head hstep (ih h)

/-- One grid row, left to right. -/
def rowCellsR (r : ℤ) : List Cell := (List.range 20).map fun j => (r, (j : ℤ))

/-- One grid row, right to left. -/
def rowCellsL (r : ℤ) : List Cell := (rowCellsR r).reverse

/-- A boustrophedon path of 149 cells starting next to the grid center:
right along row 10, then sweeping rows 11 to 17. -/
def snakePath : List Cell :=
  ((List.range 9).map fun j => ((10 : ℤ), (11 + j : ℤ)))
    ++ rowCellsL 11 ++ rowCellsR 12 ++ rowCellsL 13 ++ rowCellsR 14
    ++ rowCellsL 15 ++ rowCellsR 16 ++ rowCellsL 17

/-- Turn towards each successive path cell and tick onto it, feeding the
food draw for the following cell (so every tick eats). -/
def mkOps : Cell → List Cell → List GameOp
  | _, [] => []
  | c, n :: rest =>
      GameOp.turnStep (n.1 - c.1, n.2 - c.2) ::
      GameOp.tickStep [match rest with | [] => ((0 : ℤ), (0 : ℤ)) | m :: _ => m] ::
      mkOps n rest

/-- The full 149-eat script from `startState`. -/
def theScript : List GameOp := mkOps (10, 10) snakePath

/-- Check of a final state: did the run succeed with speed below the
claimed floor `1/20`? -/
def speedBelowFloor (o : Option GameState) : Bool :=
  o.elim false fun s => decide (s.speed < 1/20)

theorem speedBelowFloor_elim {o : Option GameState}
    (h : speedBelowFloor o = true) : ∃ s, o = some s ∧ s.speed < 1/20 := by
  cases o with
  | none => simp [speedBelowFloor] at h
  | some s => exact ⟨s, rfl, of_decide_eq_true h⟩

set_option maxRecDepth 100000 in
set_option maxHeartbeats 2000000 in
theorem theScript_run : speedBelowFloor (runScript startState theScript) = true := by
  with_unfolding_all decide

/-- C6 as literally claimed is false: the speed-up guard tests
`speed > 0.05` *before* multiplying, so the speed can end one factor of
`0.95` below `0.05`.  The script feeds the snake 149 times; at score 140
the 28th decay fires (the speed was still just above `1/20`) and leaves
the speed at `(1/5) * (19/20)^28 < 1/20`. -/
theorem speed_floor_claim_false :
    ¬(∀ s₀ s : GameState, Reachable s₀ → Relation.ReflTransGen StepTT s₀ s →
        s₀.score ≤ s.score ∧ s.speed ≤ s₀.speed ∧ 1/20 ≤ s.speed) := by
  intro hclaim
  obtain ⟨sf, hrun, hlt⟩ := speedBelowFloor_elim theScript_run
  have hmono := hclaim startState sf startState_reachable (runScript_reachTT hrun)
  exact absurd hmono.2.2 (not_le.mpr hlt)
